import Mathlib

/-!
Verification of the `companion` web store and route layer.

The TypeScript sources embedded here:
- `src/web/src/store.ts` — the zustand client store (sessions, message
  buffers, pending permissions, tasks, connection status, display names).
- `src/web/server/routes.ts` — the HTTP route handlers (`createRoutes`):
  the `/agents/:name/approve` handler, the `/sessions/create` handler with
  environment-bundle (`envSlug`) merging, and the `/sessions/:id/kill`
  handler.

JavaScript `Map` objects are embedded as ordered association lists over
`String` keys: `Map.get` returns the first binding, `Map.set` replaces an
existing binding in place (keeping its position) or appends a fresh one at
the end, `Map.delete` removes the binding.  JavaScript object spread
`{ ...a, ...b }` is embedded as `recordMerge`.
-/

namespace Companion

/-- `Map.get`: first binding for `k`, if any. -/
def mapGet {α : Type} (m : List (String × α)) (k : String) : Option α :=
  match m with
  | [] => none
  | e :: rest => if e.1 = k then some e.2 else mapGet rest k

/-- `Map.has`: whether some binding has key `k`. -/
def mapHas {α : Type} (m : List (String × α)) (k : String) : Bool :=
  m.any (fun e => e.1 == k)

/-- `Map.delete`: remove every binding for `k` (at most one on maps with
distinct keys, which is what a real JS `Map` guarantees). -/
def mapDelete {α : Type} (m : List (String × α)) (k : String) : List (String × α) :=
  match m with
  | [] => []
  | e :: rest => if e.1 = k then mapDelete rest k else e :: mapDelete rest k

/-- `Map.set`: replace the binding for `k` in place, or append a new one. -/
def mapSet {α : Type} (m : List (String × α)) (k : String) (v : α) : List (String × α) :=
  if mapHas m k then m.map (fun e => if e.1 = k then (k, v) else e)
  else m ++ [(k, v)]

/-- The keys of a map, in order. -/
def mapKeys {α : Type} (m : List (String × α)) : List String :=
  m.map (fun e => e.1)


/-! ## The client store (`src/web/src/store.ts`)

The zustand store's state and the actions the claims are about.  The type
declarations come from `types.ts`, which is not among the sources; each
structure carries exactly the fields the store reads, with any remaining
payload collapsed into an opaque `payload` string.  UI-only fields
(`darkMode`, `sidebarOpen`, `taskPanelOpen`, `homeResetKey`) and the
`localStorage` mirroring are outside the store's per-session data and are
not modelled. -/

/-- A chat message (`ChatMessage` in `types.ts`); the store reads `role`. -/
structure ChatMessage where
  id : String
  role : String
  text : String
  deriving DecidableEq

/-- A session descriptor (`SessionState`); the store reads `session_id`. -/
structure SessionState where
  session_id : String
  payload : String
  deriving DecidableEq

/-- An SDK session descriptor (`SdkSessionInfo`); the store reads `sessionId`. -/
structure SdkSessionInfo where
  sessionId : String
  payload : String
  deriving DecidableEq

/-- A pending permission/plan request (`PermissionRequest`); the store keys
by `request_id`. -/
structure PermissionRequest where
  request_id : String
  payload : String
  deriving DecidableEq

/-- A task item (`TaskItem`); `updateTask` matches on `id`. -/
structure TaskItem where
  id : String
  description : String
  status : String
  deriving DecidableEq

/-- The store state (`AppState` in `store.ts`, lines 4-87), restricted to
the session-keyed data.  Every `Map<string, _>` becomes an ordered
association list. -/
structure AppState where
  sessions : List (String × SessionState)
  sdkSessions : List SdkSessionInfo
  currentSessionId : Option String
  messages : List (String × List ChatMessage)
  streaming : List (String × String)
  streamingStartedAt : List (String × Nat)
  streamingOutputTokens : List (String × Nat)
  pendingPermissions : List (String × List (String × PermissionRequest))
  connectionStatus : List (String × String)
  cliConnected : List (String × Bool)
  sessionStatus : List (String × Option String)
  previousPermissionMode : List (String × String)
  sessionTasks : List (String × List TaskItem)
  sessionNames : List (String × String)
  deriving DecidableEq

/-- The store state after the `reset` action (`store.ts` lines 362-378):
every per-session map empty, no sdk sessions, no current session. -/
def emptyState : AppState :=
  { sessions := []
    sdkSessions := []
    currentSessionId := none
    messages := []
    streaming := []
    streamingStartedAt := []
    streamingOutputTokens := []
    pendingPermissions := []
    connectionStatus := []
    cliConnected := []
    sessionStatus := []
    previousPermissionMode := []
    sessionTasks := []
    sessionNames := [] }

/-- `removeSession` (`store.ts` lines 173-219): delete the session id from
every per-session map, drop its SDK session entry, and clear
`currentSessionId` if it pointed at the removed session.  (The
`localStorage` writes are external side effects, not state.) -/
def removeSession (s : AppState) (sessionId : String) : AppState :=
  { s with
    sessions := mapDelete s.sessions sessionId
    messages := mapDelete s.messages sessionId
    streaming := mapDelete s.streaming sessionId
    streamingStartedAt := mapDelete s.streamingStartedAt sessionId
    streamingOutputTokens := mapDelete s.streamingOutputTokens sessionId
    connectionStatus := mapDelete s.connectionStatus sessionId
    cliConnected := mapDelete s.cliConnected sessionId
    sessionStatus := mapDelete s.sessionStatus sessionId
    previousPermissionMode := mapDelete s.previousPermissionMode sessionId
    pendingPermissions := mapDelete s.pendingPermissions sessionId
    sessionTasks := mapDelete s.sessionTasks sessionId
    sessionNames := mapDelete s.sessionNames sessionId
    sdkSessions := s.sdkSessions.filter (fun sdk => sdk.sessionId != sessionId)
    currentSessionId :=
      if s.currentSessionId = some sessionId then none else s.currentSessionId }

/-- `appendMessage` (`store.ts` lines 223-229): append `msg` to the
session's buffer (empty if absent).  There is no trimming. -/
def appendMessage (s : AppState) (sessionId : String) (msg : ChatMessage) : AppState :=
  { s with
    messages :=
      mapSet s.messages sessionId ((mapGet s.messages sessionId).getD [] ++ [msg]) }

/-- `addPermission` (`store.ts` lines 277-284): key the request by its
`request_id` inside the session's pending map (created empty if absent). -/
def addPermission (s : AppState) (sessionId : String) (perm : PermissionRequest) : AppState :=
  let sessionPerms := (mapGet s.pendingPermissions sessionId).getD []
  { s with
    pendingPermissions :=
      mapSet s.pendingPermissions sessionId (mapSet sessionPerms perm.request_id perm) }

/-- `removePermission` (`store.ts` lines 286-296): if the session has a
pending map, delete the request id from (a copy of) it; otherwise the
state is unchanged. -/
def removePermission (s : AppState) (sessionId : String) (requestId : String) : AppState :=
  match mapGet s.pendingPermissions sessionId with
  | some sessionPerms =>
      { s with
        pendingPermissions :=
          mapSet s.pendingPermissions sessionId (mapDelete sessionPerms requestId) }
  | none => s

/-- The pending approval stored for `requestId` in `sessionId`, if any. -/
def pendingGet (s : AppState) (sessionId requestId : String) : Option PermissionRequest :=
  mapGet ((mapGet s.pendingPermissions sessionId).getD []) requestId

/-- An `addPermission`/`removePermission` call, for stating invariants over
arbitrary operation sequences. -/
inductive PermOp where
  | add (sessionId : String) (perm : PermissionRequest)
  | remove (sessionId : String) (requestId : String)
  deriving DecidableEq

def applyPermOp (s : AppState) : PermOp → AppState
  | .add sid perm => addPermission s sid perm
  | .remove sid rid => removePermission s sid rid

def applyPermOps (s : AppState) (ops : List PermOp) : AppState :=
  ops.foldl applyPermOp s

/-- Every session's pending map keys its entries by distinct request ids. -/
def PendingUnique (s : AppState) : Prop :=
  ∀ (sid : String) (perms : List (String × PermissionRequest)),
    mapGet s.pendingPermissions sid = some perms → (mapKeys perms).Nodup

/-! ## The route layer (`src/web/server/routes.ts`)

The handlers are embedded as pure functions from their inputs to an
outcome recording the HTTP status, the calls forwarded to the external
collaborators (controller / CLI launcher), and the console warnings.  The
collaborators themselves live outside the embedded handlers: the launcher
configuration is recorded as data, and `launcher.kill`'s reported boolean
is taken from a session table. -/

/-- JS object spread of record `a` then record `b`: keys of `a` first (a
key also in `b` keeps its position but takes `b`'s value), then the keys
only in `b`, in order. -/
def recordMerge (a b : List (String × String)) : List (String × String) :=
  (a.map fun e =>
    match mapGet b e.1 with
    | some v => (e.1, v)
    | none => e)
  ++ b.filter (fun e => !(mapHas a e.1))

/-- JS truthiness of an optional string: absent and the empty string are
falsy. -/
def strFalsy : Option String → Bool
  | none => true
  | some s => s == ""

/-- A named environment bundle (`CompanionEnv` in `env-manager.ts`).  The
source field `variables` is a reserved word in Lean and is called `vars`
here. -/
structure CompanionEnv where
  name : String
  slug : String
  vars : List (String × String)
  createdAt : Nat
  updatedAt : Nat
  deriving DecidableEq

/-- The request body of `POST /sessions/create`. -/
structure CreateSessionBody where
  model : Option String
  permissionMode : Option String
  cwd : Option String
  claudeBinary : Option String
  allowedTools : Option (List String)
  env : Option (List (String × String))
  envSlug : Option String
  deriving DecidableEq

/-- The configuration the route hands to `launcher.launch`. -/
structure LaunchConfig where
  model : Option String
  permissionMode : Option String
  cwd : Option String
  claudeBinary : Option String
  allowedTools : Option (List String)
  env : Option (List (String × String))
  deriving DecidableEq

/-- What the `POST /sessions/create` handler did: the configuration passed
to `launcher.launch`, the HTTP status of the response, and the console
warnings.  (The 500 catch branch fires only when the external launcher
throws, which is outside the embedded handler.) -/
structure CreateOutcome where
  launchedWith : LaunchConfig
  status : Nat
  warnings : List String
  deriving DecidableEq

/-- `POST /sessions/create` (`routes.ts`): when `body.envSlug` is truthy
(JS `if (body.envSlug)` — present and non-empty), resolve it through the
environment store; when found, spread the bundle's variables first and
`body.env` second; when missing, warn and keep `body.env`.  A falsy
`envSlug` (absent or the empty string) skips the lookup entirely.  Then
launch. -/
def createSessionRoute (getEnvFn : String → Option CompanionEnv)
    (body : CreateSessionBody) : CreateOutcome :=
  let resolved : Option (List (String × String)) × List String :=
    if strFalsy body.envSlug then (body.env, [])
    else
      let slug := body.envSlug.getD ""
      match getEnvFn slug with
      | some companionEnv =>
          (some (recordMerge companionEnv.vars (body.env.getD [])), [])
      | none => (body.env, ["Environment \"" ++ slug ++ "\" not found, ignoring"])
  { launchedWith :=
      { model := body.model
        permissionMode := body.permissionMode
        cwd := body.cwd
        claudeBinary := body.claudeBinary
        allowedTools := body.allowedTools
        env := resolved.1 }
    status := 200
    warnings := resolved.2 }

/-- Modelled from the spec: the `CliLauncher` session table
(`cli-launcher.ts` is not among the sources).  Each SDK session id maps to
whether its process is still running; `kill` terminates a running session
and reports `true`, and reports `false` for an id that is unknown or whose
process already exited — the contract the kill route's 404 message
("Session not found or already exited") documents. -/
structure LauncherState where
  sessions : List (String × Bool)
  deriving DecidableEq

/-- Modelled from the spec: `launcher.kill(id)` — terminate the session's
process if it is running and report whether anything was killed. -/
def launcherKill (st : LauncherState) (id : String) : LauncherState × Bool :=
  match mapGet st.sessions id with
  | some true => (⟨mapSet st.sessions id false⟩, true)
  | some false => (st, false)
  | none => (st, false)

/-- The response of `POST /sessions/:id/kill`. -/
inductive KillRouteResponse where
  /-- 200 with body `ok: true`. -/
  | ok
  /-- 404 with body `error: "Session not found or already exited"`. -/
  | sessionNotFound
  deriving DecidableEq

/-- `POST /sessions/:id/kill` (`routes.ts`): await `launcher.kill(id)` and
answer 404 when it reports `false`, 200 otherwise. -/
def killSessionRoute (st : LauncherState) (id : String) :
    LauncherState × KillRouteResponse :=
  let r := launcherKill st id
  if r.2 then (r.1, .ok) else (r.1, .sessionNotFound)

/-- The request body of `POST /agents/:name/approve`. -/
structure ApproveBody where
  requestId : Option String
  type : Option String
  approve : Option Bool
  feedback : Option String
  deriving DecidableEq

/-- A call the approve handler forwards to the controller. -/
inductive ControllerCall where
  | sendPlanApproval (name requestId : String) (approve : Bool) (feedback : Option String)
  | sendPermissionResponse (name requestId : String) (approve : Bool)
  deriving DecidableEq

/-- What the approve handler did: HTTP status, forwarded controller calls,
and the request ids passed to `bridge.removeApproval`. -/
structure ApproveOutcome where
  status : Nat
  calls : List ControllerCall
  removedApprovals : List String
  deriving DecidableEq

/-- `POST /agents/:name/approve` (`routes.ts` lines 94-110): reject with
400 when `body.requestId` is falsy or `body.type` is not `"plan"` or
`"permission"` (a falsy `type` fails the membership test as well);
otherwise forward the approval — defaulting `body.approve` to `true` — and
remove the pending approval. -/
def approveRoute (name : String) (body : ApproveBody) : ApproveOutcome :=
  if strFalsy body.requestId then ⟨400, [], []⟩
  else
    let rid := body.requestId.getD ""
    if !(body.type == some "plan" || body.type == some "permission") then
      ⟨400, [], []⟩
    else if body.type == some "plan" then
      ⟨200, [.sendPlanApproval name rid (body.approve.getD true) body.feedback], [rid]⟩
    else
      ⟨200, [.sendPermissionResponse name rid (body.approve.getD true)], [rid]⟩

/-! ## Concrete sample data used by the closed witness statements -/

def msgA : ChatMessage := ⟨"m1", "user", "hello"⟩

def permA : PermissionRequest := ⟨"r1", "Bash"⟩

def permB : PermissionRequest := ⟨"r1", "Read"⟩

def permC : PermissionRequest := ⟨"r2", "Glob"⟩

def stateA : AppState :=
  { emptyState with pendingPermissions := [("s1", [("r1", permA), ("r2", permC)])] }

def stateB : AppState :=
  { emptyState with pendingPermissions := [("s1", [("r1", permA)])] }

def envA : CompanionEnv :=
  ⟨"Prod", "prod", [("A", "bundle"), ("B", "bundle")], 0, 0⟩

def getEnvA : String → Option CompanionEnv :=
  fun slug => if slug = "prod" then some envA else none

def bodyA : CreateSessionBody :=
  ⟨none, none, none, none, none, some [("B", "explicit")], some "prod"⟩

def bodyB : CreateSessionBody :=
  ⟨none, none, none, none, none, some [("B", "explicit")], some "staging"⟩

/-! ## Lemmas about the Map model -/

section MapLemmas

variable {α : Type}

theorem mapHas_cons_iff (e : String × α) (rest : List (String × α)) (k : String) :
    mapHas (e :: rest) k = (e.1 == k || mapHas rest k) := rfl

theorem mapHas_cons_false {e : String × α} {rest : List (String × α)} {k : String}
    (h : mapHas (e :: rest) k = false) : e.1 ≠ k ∧ mapHas rest k = false := by
  rw [mapHas_cons_iff] at h
  rcases Bool.or_eq_false_iff.mp h with ⟨h1, h2⟩
  exact ⟨by simpa using h1, h2⟩

theorem mapHas_eq_isSome (m : List (String × α)) (k : String) :
    mapHas m k = (mapGet m k).isSome := by
  induction m with
  | nil => rfl
  | cons e rest ih =>
    by_cases he : e.1 = k
    · simp [mapHas_cons_iff, mapGet, he]
    · simp [mapHas_cons_iff, mapGet, he, ih]

theorem mapGet_delete_self (m : List (String × α)) (k : String) :
    mapGet (mapDelete m k) k = none := by
  induction m with
  | nil => rfl
  | cons e rest ih =>
    by_cases h : e.1 = k
    · simpa [mapDelete, h] using ih
    · simpa [mapDelete, mapGet, h] using ih

theorem mapGet_delete_ne (m : List (String × α)) {k k' : String} (h : k' ≠ k) :
    mapGet (mapDelete m k) k' = mapGet m k' := by
  induction m with
  | nil => rfl
  | cons e rest ih =>
    by_cases he : e.1 = k
    · subst he
      simp [mapDelete, mapGet, Ne.symm h, ih]
    · by_cases he' : e.1 = k'
      · simp [mapDelete, mapGet, he, he', h]
      · simp [mapDelete, mapGet, he, he', ih]

theorem mapDelete_idem (m : List (String × α)) (k : String) :
    mapDelete (mapDelete m k) k = mapDelete m k := by
  induction m with
  | nil => rfl
  | cons e rest ih =>
    by_cases h : e.1 = k
    · simp [mapDelete, h, ih]
    · simp [mapDelete, h, ih]

theorem mapGet_map_replace (m : List (String × α)) (k : String) (v : α)
    (h : mapHas m k = true) :
    mapGet (m.map (fun e => if e.1 = k then (k, v) else e)) k = some v := by
  induction m with
  | nil => simp [mapHas] at h
  | cons e rest ih =>
    by_cases he : e.1 = k
    · simp [mapGet, he]
    · rw [mapHas_cons_iff] at h
      have hrest : mapHas rest k = true := by
        rcases Bool.or_eq_true_iff.mp h with h1 | h2
        · exact absurd (by simpa using h1) he
        · exact h2
      simp [mapGet, he, ih hrest]

theorem mapGet_append_single (m : List (String × α)) {k : String} (v : α)
    (h : mapHas m k = false) : mapGet (m ++ [(k, v)]) k = some v := by
  induction m with
  | nil => simp [mapGet]
  | cons e rest ih =>
    rcases mapHas_cons_false h with ⟨h1, h2⟩
    simpa [mapGet, h1] using ih h2

theorem mapGet_set_self (m : List (String × α)) (k : String) (v : α) :
    mapGet (mapSet m k v) k = some v := by
  by_cases h : mapHas m k
  · rw [mapSet, if_pos h]
    exact mapGet_map_replace m k v h
  · rw [mapSet, if_neg h]
    exact mapGet_append_single m v (by simpa using h)

theorem mapGet_map_replace_ne (m : List (String × α)) {k k' : String} (v : α)
    (h : k' ≠ k) :
    mapGet (m.map (fun e => if e.1 = k then (k, v) else e)) k' = mapGet m k' := by
  induction m with
  | nil => rfl
  | cons e rest ih =>
    by_cases he : e.1 = k
    · simp [mapGet, he, Ne.symm h, ih]
    · by_cases he' : e.1 = k'
      · simp [mapGet, he, he', h]
      · simp [mapGet, he, he', ih]

theorem mapGet_append_ne (m : List (String × α)) {k k' : String} (v : α)
    (h : k' ≠ k) : mapGet (m ++ [(k, v)]) k' = mapGet m k' := by
  induction m with
  | nil => simp [mapGet, Ne.symm h]
  | cons e rest ih =>
    by_cases he : e.1 = k'
    · simp [mapGet, he]
    · simpa [mapGet, he] using ih

theorem mapGet_set_ne (m : List (String × α)) {k k' : String} (v : α) (h : k' ≠ k) :
    mapGet (mapSet m k v) k' = mapGet m k' := by
  by_cases hh : mapHas m k
  · rw [mapSet, if_pos hh]
    exact mapGet_map_replace_ne m v h
  · rw [mapSet, if_neg hh]
    exact mapGet_append_ne m v h

theorem map_replace_of_not_has (m : List (String × α)) {k : String} (v : α)
    (h : mapHas m k = false) :
    m.map (fun e => if e.1 = k then (k, v) else e) = m := by
  induction m with
  | nil => rfl
  | cons e rest ih =>
    rcases mapHas_cons_false h with ⟨h1, h2⟩
    simp [h1, ih h2]

theorem mapHas_set_self (m : List (String × α)) (k : String) (v : α) :
    mapHas (mapSet m k v) k = true := by
  rw [mapHas_eq_isSome, mapGet_set_self]
  rfl

theorem mapSet_set_same (m : List (String × α)) (k : String) (v v' : α) :
    mapSet (mapSet m k v) k v' = mapSet m k v' := by
  conv_lhs => rw [mapSet, if_pos (mapHas_set_self m k v)]
  by_cases h : mapHas m k
  · rw [mapSet, if_pos h, mapSet, if_pos h, List.map_map]
    apply List.map_congr_left
    intro e _
    by_cases he : e.1 = k <;> simp [Function.comp, he]
  · have hfalse : mapHas m k = false := by simpa using h
    rw [mapSet, if_neg h, mapSet, if_neg h, List.map_append,
      map_replace_of_not_has m v' hfalse]
    simp

theorem mapKeys_map_replace (m : List (String × α)) (k : String) (v : α) :
    mapKeys (m.map (fun e => if e.1 = k then (k, v) else e)) = mapKeys m := by
  simp only [mapKeys, List.map_map]
  apply List.map_congr_left
  intro e _
  by_cases he : e.1 = k <;> simp [Function.comp, he]

theorem mapKeys_delete_sublist (m : List (String × α)) (k : String) :
    (mapKeys (mapDelete m k)).Sublist (mapKeys m) := by
  induction m with
  | nil => simp [mapDelete, mapKeys]
  | cons e rest ih =>
    by_cases he : e.1 = k
    · simp only [mapDelete, he, if_true, mapKeys, List.map_cons]
      exact List.Sublist.cons _ ih
    · simp only [mapDelete, he, if_false, mapKeys, List.map_cons]
      exact List.Sublist.cons₂ _ ih

theorem nodup_keys_delete (m : List (String × α)) (k : String)
    (h : (mapKeys m).Nodup) : (mapKeys (mapDelete m k)).Nodup :=
  (mapKeys_delete_sublist m k).nodup h

theorem mem_keys_isSome (m : List (String × α)) {k : String}
    (h : k ∈ mapKeys m) : (mapGet m k).isSome = true := by
  induction m with
  | nil => simp [mapKeys] at h
  | cons e rest ih =>
    by_cases he : e.1 = k
    · simp [mapGet, he]
    · have hx : k ∈ e.1 :: mapKeys rest := h
      have h2 : k ∈ mapKeys rest := by
        rcases List.mem_cons.mp hx with h1 | h1
        · exact absurd h1.symm he
        · exact h1
      simpa [mapGet, he] using ih h2

theorem mapHas_false_not_mem_keys (m : List (String × α)) {k : String}
    (h : mapHas m k = false) : k ∉ mapKeys m := by
  intro hmem
  have := mem_keys_isSome m hmem
  rw [mapHas_eq_isSome] at h
  rw [h] at this
  exact Bool.false_ne_true this

theorem nodup_keys_set (m : List (String × α)) (k : String) (v : α)
    (h : (mapKeys m).Nodup) : (mapKeys (mapSet m k v)).Nodup := by
  by_cases hh : mapHas m k
  · rw [mapSet, if_pos hh, mapKeys_map_replace]
    exact h
  · have hfalse : mapHas m k = false := by simpa using hh
    rw [mapSet, if_neg hh]
    have hkeys : mapKeys (m ++ [(k, v)]) = mapKeys m ++ [k] := by
      simp [mapKeys]
    rw [hkeys, List.nodup_append]
    exact ⟨h, List.nodup_singleton k,
      by simpa [List.disjoint_singleton] using mapHas_false_not_mem_keys m hfalse⟩

theorem length_mapSet_of_has (m : List (String × α)) (k : String) (v : α)
    (h : mapHas m k = true) : (mapSet m k v).length = m.length := by
  rw [mapSet, if_pos h, List.length_map]

theorem mapGet_append_cases (xs ys : List (String × α)) (k : String) :
    mapGet (xs ++ ys) k =
      match mapGet xs k with
      | some v => some v
      | none => mapGet ys k := by
  induction xs with
  | nil => rfl
  | cons e rest ih =>
    by_cases he : e.1 = k
    · simp [mapGet, he]
    · simpa [mapGet, he] using ih

end MapLemmas

section RecordMergeLemmas

theorem mapGet_mergeMap_of_some (a b : List (String × String)) {k v : String}
    (h : mapGet b k = some v) :
    mapGet (a.map fun e =>
        match mapGet b e.1 with
        | some w => (e.1, w)
        | none => e) k
      = (mapGet a k).map (fun _ => v) := by
  induction a with
  | nil => rfl
  | cons e rest ih =>
    by_cases he : e.1 = k
    · cases hb : mapGet b e.1 with
      | none => rw [he] at hb; rw [hb] at h; cases h
      | some w =>
        rw [he] at hb
        have hv : w = v := by rw [hb] at h; exact (Option.some.injEq _ _).mp h
        subst hv
        simp [mapGet, he, hb]
    · cases hb : mapGet b e.1 <;> simp [mapGet, hb, he, ih]

theorem mapGet_mergeMap_of_none (a b : List (String × String)) {k : String}
    (h : mapGet b k = none) :
    mapGet (a.map fun e =>
        match mapGet b e.1 with
        | some w => (e.1, w)
        | none => e) k
      = mapGet a k := by
  induction a with
  | nil => rfl
  | cons e rest ih =>
    by_cases he : e.1 = k
    · cases hb : mapGet b e.1 with
      | none => rw [he] at hb; simp [mapGet, hb, he]
      | some w => rw [he] at hb; rw [hb] at h; cases h
    · cases hb : mapGet b e.1 <;> simp [mapGet, hb, he, ih]

theorem mapGet_filter_not_has (a b : List (String × String)) {k : String}
    (h : mapHas a k = false) :
    mapGet (b.filter fun e => !(mapHas a e.1)) k = mapGet b k := by
  induction b with
  | nil => rfl
  | cons e rest ih =>
    by_cases he : e.1 = k
    · have hek : mapHas a e.1 = false := by rw [he]; exact h
      simp [List.filter_cons, hek, mapGet, he, h]
    · rw [List.filter_cons]
      by_cases hkeep : (!mapHas a e.1) = true
      · rw [if_pos hkeep]
        simpa [mapGet, he] using ih
      · rw [if_neg hkeep, ih]
        simp [mapGet, he]

theorem mapGet_filter_of_not_has_b (b : List (String × String))
    (p : String × String → Bool) {k : String} (h : mapHas b k = false) :
    mapGet (b.filter p) k = none := by
  induction b with
  | nil => rfl
  | cons e rest ih =>
    rcases mapHas_cons_false h with ⟨h1, h2⟩
    rw [List.filter_cons]
    by_cases hkeep : p e = true
    · rw [if_pos hkeep]
      simpa [mapGet, h1] using ih h2
    · rw [if_neg hkeep]
      exact ih h2

/-- Explicit keys win: a key bound in `b` keeps `b`'s value in the merge. -/
theorem mapGet_recordMerge_of_right (a b : List (String × String)) {k v : String}
    (h : mapGet b k = some v) : mapGet (recordMerge a b) k = some v := by
  rw [recordMerge, mapGet_append_cases, mapGet_mergeMap_of_some a b h]
  cases ha : mapGet a k with
  | some w => rfl
  | none =>
    have hhas : mapHas a k = false := by
      rw [mapHas_eq_isSome, ha]
      rfl
    show mapGet (b.filter fun e => !(mapHas a e.1)) k = some v
    rw [mapGet_filter_not_has a b hhas]
    exact h

/-- Bundle-only keys survive: a key not bound in `b` takes `a`'s value. -/
theorem mapGet_recordMerge_of_left (a b : List (String × String)) {k : String}
    (h : mapGet b k = none) : mapGet (recordMerge a b) k = mapGet a k := by
  rw [recordMerge, mapGet_append_cases, mapGet_mergeMap_of_none a b h]
  cases ha : mapGet a k with
  | some w => rfl
  | none =>
    have hb : mapHas b k = false := by
      rw [mapHas_eq_isSome, h]
      rfl
    exact mapGet_filter_of_not_has_b b _ hb

end RecordMergeLemmas

/-! ## Claims about the client store -/

/-- C1: resolving an approval requestId that is absent from the pending set
(including resolving the same requestId a second time) is a no-op: for
every session state and every requestId, `removePermission` leaves every
pending approval with a different requestId unchanged, and applying
`removePermission` twice with the same requestId yields the same state as
applying it once. -/
theorem removePermission_unrelated_unchanged_and_idempotent :
    ∀ (s : AppState) (sid rid : String),
      (∀ (sid' rid' : String), rid' ≠ rid →
          pendingGet (removePermission s sid rid) sid' rid' = pendingGet s sid' rid')
      ∧ removePermission (removePermission s sid rid) sid rid
          = removePermission s sid rid := by
  intro s sid rid
  constructor
  · intro sid' rid' hne
    cases hp : mapGet s.pendingPermissions sid with
    | none => simp [removePermission, hp]
    | some perms =>
      by_cases hsid : sid' = sid
      · subst hsid
        simp [removePermission, hp, pendingGet, mapGet_set_self, mapGet_delete_ne _ hne]
      · simp [removePermission, hp, pendingGet, mapGet_set_ne _ _ hsid]
  · cases hp : mapGet s.pendingPermissions sid with
    | none => simp [removePermission, hp]
    | some perms =>
      simp [removePermission, hp, mapGet_set_self, mapDelete_idem, mapSet_set_same]

/-- Closed instance of the C1 theorem at a concrete store state. -/
theorem removePermission_unrelated_unchanged_and_idempotent_witness :
    pendingGet (removePermission stateA "s1" "r1") "s1" "r2" = pendingGet stateA "s1" "r2"
    ∧ removePermission (removePermission stateA "s1" "r1") "s1" "r1"
        = removePermission stateA "s1" "r1" :=
  ⟨(removePermission_unrelated_unchanged_and_idempotent stateA "s1" "r1").1 "s1" "r2"
      (by decide),
    (removePermission_unrelated_unchanged_and_idempotent stateA "s1" "r1").2⟩

/-- C3: removing a session removes every record keyed by that session id —
its session entry, messages, streaming buffers and stats, pending
approvals, tasks, connection status entries, status, previous permission
mode and display name — plus its SDK session entry, and the current
session pointer no longer names it. -/
theorem removeSession_removes_all_records :
    ∀ (s : AppState) (sid : String),
      mapGet (removeSession s sid).sessions sid = none
      ∧ mapGet (removeSession s sid).messages sid = none
      ∧ mapGet (removeSession s sid).streaming sid = none
      ∧ mapGet (removeSession s sid).streamingStartedAt sid = none
      ∧ mapGet (removeSession s sid).streamingOutputTokens sid = none
      ∧ mapGet (removeSession s sid).pendingPermissions sid = none
      ∧ mapGet (removeSession s sid).connectionStatus sid = none
      ∧ mapGet (removeSession s sid).cliConnected sid = none
      ∧ mapGet (removeSession s sid).sessionStatus sid = none
      ∧ mapGet (removeSession s sid).previousPermissionMode sid = none
      ∧ mapGet (removeSession s sid).sessionTasks sid = none
      ∧ mapGet (removeSession s sid).sessionNames sid = none
      ∧ (∀ sdk ∈ (removeSession s sid).sdkSessions, sdk.sessionId ≠ sid)
      ∧ (removeSession s sid).currentSessionId ≠ some sid := by
  intro s sid
  refine ⟨mapGet_delete_self _ _, mapGet_delete_self _ _, mapGet_delete_self _ _,
    mapGet_delete_self _ _, mapGet_delete_self _ _, mapGet_delete_self _ _,
    mapGet_delete_self _ _, mapGet_delete_self _ _, mapGet_delete_self _ _,
    mapGet_delete_self _ _, mapGet_delete_self _ _, mapGet_delete_self _ _, ?_, ?_⟩
  · intro sdk hmem
    have := List.of_mem_filter hmem
    simpa using this
  · show (if s.currentSessionId = some sid then none else s.currentSessionId) ≠ some sid
    by_cases hc : s.currentSessionId = some sid
    · simp [hc]
    · simp only [if_neg hc]
      exact hc

/-- C7: `appendMessage` is append-only and order-preserving: the session's
buffer becomes the prior list with the message at the end, and every other
session's buffer is untouched. -/
theorem appendMessage_append_only :
    ∀ (s : AppState) (sid : String) (msg : ChatMessage),
      mapGet (appendMessage s sid msg).messages sid
          = some ((mapGet s.messages sid).getD [] ++ [msg])
      ∧ (∀ sid' : String, sid' ≠ sid →
          mapGet (appendMessage s sid msg).messages sid' = mapGet s.messages sid') := by
  intro s sid msg
  constructor
  · exact mapGet_set_self _ _ _
  · intro sid' h
    exact mapGet_set_ne _ _ h

/-- Closed instance of the C7 theorem at a concrete store state. -/
theorem appendMessage_append_only_witness :
    mapGet (appendMessage emptyState "s1" msgA).messages "s1"
        = some ((mapGet emptyState.messages "s1").getD [] ++ [msgA])
    ∧ mapGet (appendMessage emptyState "s1" msgA).messages "s2"
        = mapGet emptyState.messages "s2" :=
  ⟨(appendMessage_append_only emptyState "s1" msgA).1,
    (appendMessage_append_only emptyState "s1" msgA).2 "s2" (by decide)⟩

/-- C4 (counterexample): there is no cap under which `appendMessage` on a
buffer already at the cap drops the oldest message and keeps the length
within the cap — the store's `appendMessage` never trims. -/
theorem appendMessage_no_cap_counterexample :
    (∃ cap : Nat, ∀ (s : AppState) (sid : String) (msg : ChatMessage),
        (((mapGet s.messages sid).getD []).length = cap →
          (mapGet (appendMessage s sid msg).messages sid).getD []
            = ((mapGet s.messages sid).getD []).tail ++ [msg])
        ∧ (((mapGet s.messages sid).getD []).length ≤ cap →
          ((mapGet (appendMessage s sid msg).messages sid).getD []).length ≤ cap))
      = False := by
  refine eq_false ?_
  rintro ⟨cap, h⟩
  have h2 := (h { emptyState with messages := [("s1", List.replicate cap msgA)] }
    "s1" msgA).2
  have hbefore :
      ((mapGet ({ emptyState with
          messages := [("s1", List.replicate cap msgA)] } : AppState).messages
        "s1").getD []).length = cap := by
    simp [mapGet]
  have hafter :
      ((mapGet (appendMessage
          { emptyState with messages := [("s1", List.replicate cap msgA)] }
          "s1" msgA).messages "s1").getD []).length = cap + 1 := by
    rw [show (appendMessage
        { emptyState with messages := [("s1", List.replicate cap msgA)] }
        "s1" msgA).messages
      = mapSet [("s1", List.replicate cap msgA)] "s1"
          ((mapGet [("s1", List.replicate cap msgA)] "s1").getD [] ++ [msgA]) from rfl]
    rw [mapGet_set_self]
    simp [mapGet]
  have hle := h2 (le_of_eq hbefore)
  rw [hafter] at hle
  omega

/-- C4 (amended): the client store's `appendMessage` enforces no cap — each
call grows the session's buffer by exactly one message. -/
theorem appendMessage_unbounded_growth :
    ∀ (s : AppState) (sid : String) (msg : ChatMessage),
      ((mapGet (appendMessage s sid msg).messages sid).getD []).length
        = ((mapGet s.messages sid).getD []).length + 1 := by
  intro s sid msg
  rw [show (appendMessage s sid msg).messages
      = mapSet s.messages sid ((mapGet s.messages sid).getD [] ++ [msg]) from rfl]
  rw [mapGet_set_self]
  simp

theorem pendingUnique_addPermission (s : AppState) (sid : String)
    (perm : PermissionRequest) (h : PendingUnique s) :
    PendingUnique (addPermission s sid perm) := by
  intro sid' perms' hp
  have hpp : (addPermission s sid perm).pendingPermissions
      = mapSet s.pendingPermissions sid
          (mapSet ((mapGet s.pendingPermissions sid).getD []) perm.request_id perm) := rfl
  rw [hpp] at hp
  by_cases hsid : sid' = sid
  · rw [hsid, mapGet_set_self] at hp
    rw [← Option.some.inj hp]
    apply nodup_keys_set
    cases hg : mapGet s.pendingPermissions sid with
    | none => simp [mapKeys]
    | some perms => rw [Option.getD_some]; exact h sid perms hg
  · rw [mapGet_set_ne _ _ hsid] at hp
    exact h sid' perms' hp

theorem pendingUnique_removePermission (s : AppState) (sid rid : String)
    (h : PendingUnique s) : PendingUnique (removePermission s sid rid) := by
  intro sid' perms' hp
  cases hg : mapGet s.pendingPermissions sid with
  | none =>
    simp only [removePermission, hg] at hp
    exact h sid' perms' hp
  | some perms =>
    simp only [removePermission, hg] at hp
    by_cases hsid : sid' = sid
    · rw [hsid, mapGet_set_self] at hp
      rw [← Option.some.inj hp]
      exact nodup_keys_delete _ _ (h sid perms hg)
    · rw [mapGet_set_ne _ _ hsid] at hp
      exact h sid' perms' hp

/-- C9: pending-approval sets keep request ids unique: starting from a
state whose pending maps are keyed by distinct request ids, any sequence
of `addPermission`/`removePermission` calls preserves that, and
`addPermission` with an already-present `request_id` replaces the entry —
same number of entries, new value under the id — rather than duplicating
it. -/
theorem pending_request_ids_unique :
    (∀ (s : AppState) (ops : List PermOp),
        PendingUnique s → PendingUnique (applyPermOps s ops))
    ∧ (∀ (s : AppState) (sid : String) (perm : PermissionRequest),
        mapHas ((mapGet s.pendingPermissions sid).getD []) perm.request_id = true →
          ((mapGet (addPermission s sid perm).pendingPermissions sid).getD []).length
              = ((mapGet s.pendingPermissions sid).getD []).length
          ∧ pendingGet (addPermission s sid perm) sid perm.request_id = some perm) := by
  constructor
  · intro s ops
    induction ops generalizing s with
    | nil => exact fun h => h
    | cons op rest ih =>
      intro h
      have h1 : PendingUnique (applyPermOp s op) := by
        cases op with
        | add sid perm => exact pendingUnique_addPermission s sid perm h
        | remove sid rid => exact pendingUnique_removePermission s sid rid h
      exact ih (applyPermOp s op) h1
  · intro s sid perm hhas
    have hpp : (addPermission s sid perm).pendingPermissions
        = mapSet s.pendingPermissions sid
            (mapSet ((mapGet s.pendingPermissions sid).getD []) perm.request_id perm) :=
      rfl
    constructor
    · rw [hpp, mapGet_set_self, Option.getD_some]
      exact length_mapSet_of_has _ _ _ hhas
    · rw [pendingGet, hpp, mapGet_set_self, Option.getD_some]
      exact mapGet_set_self _ _ _

/-- Closed instance of the C9 theorem: an operation sequence from the
empty store, and a replacing `addPermission` on a concrete state. -/
theorem pending_request_ids_unique_witness :
    PendingUnique (applyPermOps emptyState
        [PermOp.add "s1" permA, PermOp.add "s1" permB, PermOp.remove "s1" "r0"])
    ∧ (((mapGet (addPermission stateB "s1" permB).pendingPermissions "s1").getD
            []).length
          = ((mapGet stateB.pendingPermissions "s1").getD []).length
        ∧ pendingGet (addPermission stateB "s1" permB) "s1" permB.request_id
            = some permB) :=
  ⟨pending_request_ids_unique.1 emptyState
      [PermOp.add "s1" permA, PermOp.add "s1" permB, PermOp.remove "s1" "r0"]
      (by intro sid perms hp; simp [emptyState, mapGet] at hp),
    pending_request_ids_unique.2 stateB "s1" permB (by decide)⟩

/-! ## Claims about the route layer -/

/-- C2 (counterexample): killing an unknown session does not return
success — `POST /sessions/:id/kill` answers 404 ("Session not found or
already exited") for a session id the launcher does not know. -/
theorem killSessionRoute_unknown_not_success :
    mapGet (LauncherState.mk []).sessions "s1" = none
    ∧ (killSessionRoute ⟨[]⟩ "s1").2 = KillRouteResponse.sessionNotFound
    ∧ KillRouteResponse.sessionNotFound ≠ KillRouteResponse.ok := by
  refine ⟨rfl, rfl, by decide⟩

/-- C2 (amended): issuing a kill request for a session that is not running
(already exited or unknown) returns the 404 "Session not found or already
exited" response — not success — and causes no state change. -/
theorem killSessionRoute_non_running_404_no_change :
    ∀ (st : LauncherState) (id : String),
      (mapGet st.sessions id = none ∨ mapGet st.sessions id = some false) →
        (killSessionRoute st id).2 = KillRouteResponse.sessionNotFound
        ∧ (killSessionRoute st id).1 = st := by
  intro st id h
  rcases h with h | h <;> simp [killSessionRoute, launcherKill, h]

/-- Closed instance of the amended C2 theorem at a concrete launcher
state holding one already-exited session. -/
theorem killSessionRoute_non_running_404_no_change_witness :
    (killSessionRoute ⟨[("a", false)]⟩ "a").2 = KillRouteResponse.sessionNotFound
    ∧ (killSessionRoute ⟨[("a", false)]⟩ "a").1 = (⟨[("a", false)]⟩ : LauncherState) :=
  killSessionRoute_non_running_404_no_change ⟨[("a", false)]⟩ "a" (Or.inr (by decide))

/-- C5: when a session is created with an environment-bundle slug (truthy,
i.e. non-empty, per the handler's JS `if (body.envSlug)` guard) that
resolves, the launch configuration's environment is the bundle spread
first and the explicit variables second: every key bound explicitly keeps
its explicit value, and every bundle-only key keeps the bundle's value. -/
theorem createSessionRoute_env_merge :
    ∀ (getEnvFn : String → Option CompanionEnv) (body : CreateSessionBody)
      (slug : String) (ce : CompanionEnv),
      body.envSlug = some slug → slug ≠ "" → getEnvFn slug = some ce →
        (createSessionRoute getEnvFn body).launchedWith.env
            = some (recordMerge ce.vars (body.env.getD []))
        ∧ (∀ k v : String, mapGet (body.env.getD []) k = some v →
            mapGet (recordMerge ce.vars (body.env.getD [])) k = some v)
        ∧ (∀ k : String, mapGet (body.env.getD []) k = none →
            mapGet (recordMerge ce.vars (body.env.getD [])) k = mapGet ce.vars k) := by
  intro f body slug ce hslug hne hce
  refine ⟨?_, ?_, ?_⟩
  · simp [createSessionRoute, strFalsy, hslug, hne, hce]
  · intro k v hk
    exact mapGet_recordMerge_of_right _ _ hk
  · intro k hk
    exact mapGet_recordMerge_of_left _ _ hk

/-- Closed instance of the C5 theorem: a concrete bundle and body where
the shared key "B" takes the explicit value and the bundle-only key "A"
survives. -/
theorem createSessionRoute_env_merge_witness :
    (createSessionRoute getEnvA bodyA).launchedWith.env
        = some (recordMerge envA.vars (bodyA.env.getD []))
    ∧ mapGet (recordMerge envA.vars (bodyA.env.getD [])) "B" = some "explicit"
    ∧ mapGet (recordMerge envA.vars (bodyA.env.getD [])) "A" = mapGet envA.vars "A" :=
  ⟨(createSessionRoute_env_merge getEnvA bodyA "prod" envA rfl (by decide)
      (by decide)).1,
    (createSessionRoute_env_merge getEnvA bodyA "prod" envA rfl (by decide)
      (by decide)).2.1 "B" "explicit" (by decide),
    (createSessionRoute_env_merge getEnvA bodyA "prod" envA rfl (by decide)
      (by decide)).2.2 "A" (by decide)⟩

/-- C6: when the environment-bundle lookup for the given slug (truthy,
i.e. non-empty, per the handler's JS `if (body.envSlug)` guard) fails, the
handler warns and proceeds: the session is still launched with only the
explicitly provided environment variables, with a 200 response. -/
theorem createSessionRoute_missing_env_proceeds :
    ∀ (getEnvFn : String → Option CompanionEnv) (body : CreateSessionBody)
      (slug : String),
      body.envSlug = some slug → slug ≠ "" → getEnvFn slug = none →
        (createSessionRoute getEnvFn body).status = 200
        ∧ (createSessionRoute getEnvFn body).launchedWith.env = body.env
        ∧ (createSessionRoute getEnvFn body).warnings
            = ["Environment \"" ++ slug ++ "\" not found, ignoring"] := by
  intro f body slug hslug hne hce
  refine ⟨rfl, ?_, ?_⟩ <;> simp [createSessionRoute, strFalsy, hslug, hne, hce]

/-- Closed instance of the C6 theorem at a slug the store does not have. -/
theorem createSessionRoute_missing_env_proceeds_witness :
    (createSessionRoute getEnvA bodyB).status = 200
    ∧ (createSessionRoute getEnvA bodyB).launchedWith.env = bodyB.env
    ∧ (createSessionRoute getEnvA bodyB).warnings
        = ["Environment \"" ++ "staging" ++ "\" not found, ignoring"] :=
  createSessionRoute_missing_env_proceeds getEnvA bodyB "staging" rfl (by decide)
    (by decide)

/-- C8: validation failures are rejected with 400 before any state change:
a body lacking `requestId`, or whose `type` is neither "plan" nor
"permission", yields 400 with no forwarded controller call and no removed
approval. -/
theorem approveRoute_validation_rejects :
    ∀ (name : String) (body : ApproveBody),
      (body.requestId = none
        ∨ (body.type ≠ some "plan" ∧ body.type ≠ some "permission")) →
        (approveRoute name body).status = 400
        ∧ (approveRoute name body).calls = []
        ∧ (approveRoute name body).removedApprovals = [] := by
  intro name body h
  have heq : approveRoute name body = ⟨400, [], []⟩ := by
    rcases h with h | ⟨h1, h2⟩
    · simp [approveRoute, h, strFalsy]
    · by_cases hrid : strFalsy body.requestId = true
      · simp [approveRoute, hrid]
      · have htype : (body.type == some "plan" || body.type == some "permission")
            = false := by
          rw [Bool.or_eq_false_iff]
          constructor <;> rw [beq_eq_false_iff_ne] <;> assumption
        simp [approveRoute, hrid, htype]
  rw [heq]
  exact ⟨rfl, rfl, rfl⟩

/-- Closed instance of the C8 theorem at a body with an unrecognized
approval type. -/
theorem approveRoute_validation_rejects_witness :
    (approveRoute "alice" ⟨some "r1", some "bogus", none, none⟩).status = 400
    ∧ (approveRoute "alice" ⟨some "r1", some "bogus", none, none⟩).calls = []
    ∧ (approveRoute "alice" ⟨some "r1", some "bogus", none, none⟩).removedApprovals
        = [] :=
  approveRoute_validation_rejects "alice" ⟨some "r1", some "bogus", none, none⟩
    (Or.inr (by decide))

/-- C10: when the body of `POST /agents/:name/approve` omits `approve`,
the request is forwarded as an approval (`approve = true`), for both the
"plan" and "permission" types. -/
theorem approveRoute_approve_defaults_true :
    ∀ (name rid : String) (feedback : Option String), rid ≠ "" →
      approveRoute name ⟨some rid, some "plan", none, feedback⟩
          = ⟨200, [ControllerCall.sendPlanApproval name rid true feedback], [rid]⟩
      ∧ approveRoute name ⟨some rid, some "permission", none, none⟩
          = ⟨200, [ControllerCall.sendPermissionResponse name rid true], [rid]⟩ := by
  intro name rid feedback hrid
  constructor <;> simp [approveRoute, strFalsy, hrid]

/-- Closed instance of the C10 theorem at concrete approve bodies omitting
the `approve` field. -/
theorem approveRoute_approve_defaults_true_witness :
    approveRoute "alice" ⟨some "r1", some "plan", none, some "lgtm"⟩
        = ⟨200, [ControllerCall.sendPlanApproval "alice" "r1" true (some "lgtm")],
            ["r1"]⟩
    ∧ approveRoute "alice" ⟨some "r1", some "permission", none, none⟩
        = ⟨200, [ControllerCall.sendPermissionResponse "alice" "r1" true], ["r1"]⟩ :=
  approveRoute_approve_defaults_true "alice" "r1" (some "lgtm") (by decide)

end Companion
